import Mathlib

/-!
Verification of the run orchestrator of `packages/hurl/src/main.rs`:
input resolution, the per-source execution loop, failure classification
and exit codes, and the report-writing coordination (JUnit/HTML/cookie
jar/textual summary).  Definitions are shallow embeddings of the Rust
functions of `main.rs`; external collaborators (the execution engine,
the filesystem, terminal detection) are modelled as oracles.
-/

/- Exit codes, from the constants at the top of main.rs. -/

def EXIT_OK : Int := 0

def EXIT_ERROR_COMMANDLINE : Int := 1

def EXIT_ERROR_PARSING : Int := 2

def EXIT_ERROR_RUNTIME : Int := 3

def EXIT_ERROR_ASSERT : Int := 4

def EXIT_ERROR_UNDEFINED : Int := 127

/-- Modelled from the spec: an error captured inside an execution outcome is
tagged as either an assertion error (`assert = true`) or a runner error
(`assert = false`).  The full `Error` struct of the engine also carries a
source location and a message, which no function of main.rs inspects. -/
structure Error where
  assert : Bool
deriving DecidableEq, Repr

/-- Modelled from the spec: one per-step result of an execution outcome,
carrying its own ordered sequence of errors.  Other fields of the engine's
`EntryResult` (calls, captures, asserts, timings) are not inspected by
main.rs. -/
structure EntryResult where
  errors : List Error
deriving DecidableEq, Repr

/-- Modelled from the spec: the structured result of running one source
against the engine (`hurl::runner::HurlResult`): ordered per-step results,
total elapsed time, overall success flag, accumulated cookies.  A cookie is
kept abstract as its Netscape-format serialization (`cookie.to_string()`
in main.rs only appends this line to the jar). -/
structure HurlResult where
  entries : List EntryResult
  time_in_ms : Nat
  success : Bool
  cookies : List String
deriving DecidableEq, Repr

/-- Modelled from the spec: `HurlResult::errors()` collects all errors
across all per-step results, in order. -/
def HurlResult.errors (r : HurlResult) : List Error :=
  r.entries.flatMap (fun e => e.errors)

/-- The `HurlRun` struct of main.rs: source content, filename, and the
execution outcome. -/
structure HurlRun where
  content : String
  filename : String
  hurl_result : HurlResult
deriving DecidableEq, Repr

/-- A run contributes to `count_errors_runner` in `exit_code`: its error
list is non-empty and contains at least one non-assertion error. -/
def isRunnerFailure (r : HurlRun) : Bool :=
  !r.hurl_result.errors.isEmpty &&
    !((r.hurl_result.errors.filter (fun e => !e.assert)).length == 0)

/-- A run contributes to `count_errors_assert` in `exit_code`: its error
list is non-empty and every error in it is an assertion error. -/
def isAssertFailure (r : HurlRun) : Bool :=
  !r.hurl_result.errors.isEmpty &&
    ((r.hurl_result.errors.filter (fun e => !e.assert)).length == 0)

/-- The body of the `for run in runs.iter()` loop of `exit_code` in main.rs:
threads the pair (count_errors_runner, count_errors_assert) through one run. -/
def classifyStep (c : Nat × Nat) (run : HurlRun) : Nat × Nat :=
  if run.hurl_result.errors.isEmpty then c
  else if (run.hurl_result.errors.filter (fun e => !e.assert)).length == 0 then
    (c.1, c.2 + 1)
  else (c.1 + 1, c.2)

/-- The counting loop of `exit_code` in main.rs, starting from two zero
counters. -/
def classifyCounts (runs : List HurlRun) : Nat × Nat :=
  runs.foldl classifyStep (0, 0)

/-- Function `exit_code` of main.rs: returns an exit code for a list of HurlRun. -/
def exit_code (runs : List HurlRun) : Int :=
  let c := classifyCounts runs
  if c.1 > 0 then EXIT_ERROR_RUNTIME
  else if c.2 > 0 then EXIT_ERROR_ASSERT
  else EXIT_OK

lemma classifyCounts_foldl (runs : List HurlRun) (a b : Nat) :
    runs.foldl classifyStep (a, b) =
      (a + (runs.filter isRunnerFailure).length,
       b + (runs.filter isAssertFailure).length) := by
  induction runs generalizing a b with
  | nil => simp
  | cons r rs ih =>
    rw [List.foldl_cons]
    by_cases h1 : r.hurl_result.errors.isEmpty
    · have hr : isRunnerFailure r = false := by simp [isRunnerFailure, h1]
      have ha : isAssertFailure r = false := by simp [isAssertFailure, h1]
      have hstep : classifyStep (a, b) r = (a, b) := by simp [classifyStep, h1]
      rw [hstep, ih a b]
      simp [List.filter_cons, hr, ha]
    · have h1' : r.hurl_result.errors.isEmpty = false := by simpa using h1
      by_cases h2 : (r.hurl_result.errors.filter (fun e => !e.assert)).length == 0
      · have hr : isRunnerFailure r = false := by simp [isRunnerFailure, h2]
        have ha : isAssertFailure r = true := by simp [isAssertFailure, h1', h2]
        have hstep : classifyStep (a, b) r = (a, b + 1) := by simp [classifyStep, h1', h2]
        rw [hstep, ih a (b + 1)]
        simp [List.filter_cons, hr, ha, Prod.ext_iff]
        omega
      · have hr : isRunnerFailure r = true := by simp [isRunnerFailure, h1', h2]
        have ha : isAssertFailure r = false := by simp [isAssertFailure, h2]
        have hstep : classifyStep (a, b) r = (a + 1, b) := by simp [classifyStep, h1', h2]
        rw [hstep, ih (a + 1) b]
        simp [List.filter_cons, hr, ha, Prod.ext_iff]
        omega

lemma classifyCounts_eq (runs : List HurlRun) :
    classifyCounts runs =
      ((runs.filter isRunnerFailure).length, (runs.filter isAssertFailure).length) := by
  have h := classifyCounts_foldl runs 0 0
  simpa [classifyCounts] using h

/-- A run that finished with no errors at all. -/
def okRun : HurlRun :=
  ⟨"GET http://a", "ok.hurl", ⟨[⟨[]⟩], 10, true, []⟩⟩

/-- A run whose only error is tagged as an assertion error. -/
def assertFailRun : HurlRun :=
  ⟨"GET http://b", "assert.hurl", ⟨[⟨[⟨true⟩]⟩], 10, false, []⟩⟩

/-- A run with one non-assertion (runner) error. -/
def runnerFailRun : HurlRun :=
  ⟨"GET http://c", "runner.hurl", ⟨[⟨[⟨false⟩]⟩], 10, false, []⟩⟩

/-- C1: for every batch in which at least one run's error list contains at
least one error not tagged as an assertion error, `exit_code` returns
`EXIT_ERROR_RUNTIME` (3), regardless of the other runs. -/
theorem exit_code_runtime_of_runner_error (runs : List HurlRun)
    (h : ∃ r ∈ runs, ∃ e ∈ r.hurl_result.errors, e.assert = false) :
    exit_code runs = EXIT_ERROR_RUNTIME := by
  obtain ⟨r, hr, e, he, hea⟩ := h
  have hne : r.hurl_result.errors ≠ [] := List.ne_nil_of_mem he
  have hmem : e ∈ r.hurl_result.errors.filter (fun e => !e.assert) :=
    List.mem_filter.mpr ⟨he, by simp [hea]⟩
  have hlen : (r.hurl_result.errors.filter (fun e => !e.assert)).length ≠ 0 := by
    intro h0
    rw [List.length_eq_zero] at h0
    simp [h0] at hmem
  have hrf : isRunnerFailure r = true := by
    simp [isRunnerFailure, hne, hlen, List.isEmpty_iff]
  have hmem' : r ∈ runs.filter isRunnerFailure := List.mem_filter.mpr ⟨hr, hrf⟩
  have hpos : 0 < (runs.filter isRunnerFailure).length :=
    List.length_pos.mpr (List.ne_nil_of_mem hmem')
  simp [exit_code, classifyCounts_eq, hpos]

/-- Witness for C1: a batch of one succeeding run, one assertion-only
failure and one runner failure exits with code 3. -/
theorem exit_code_runtime_of_runner_error_witness :
    exit_code [okRun, assertFailRun, runnerFailRun] = EXIT_ERROR_RUNTIME :=
  exit_code_runtime_of_runner_error [okRun, assertFailRun, runnerFailRun]
    ⟨runnerFailRun, by decide, ⟨false⟩, by decide, rfl⟩

/-- C2: if every run's error list is empty or consists exclusively of
assertion errors and at least one is non-empty, `exit_code` returns
`EXIT_ERROR_ASSERT` (4) and never `EXIT_ERROR_RUNTIME` (3); and if every
run's error list is empty, `exit_code` returns `EXIT_OK` (0). -/
theorem exit_code_assert_and_ok (runs : List HurlRun) :
    ((∀ r ∈ runs, r.hurl_result.errors = [] ∨ ∀ e ∈ r.hurl_result.errors, e.assert = true) →
      (∃ r ∈ runs, r.hurl_result.errors ≠ []) →
      exit_code runs = EXIT_ERROR_ASSERT ∧ exit_code runs ≠ EXIT_ERROR_RUNTIME) ∧
    ((∀ r ∈ runs, r.hurl_result.errors = []) → exit_code runs = EXIT_OK) := by
  constructor
  · intro hall hsome
    have hrun0 : ∀ r ∈ runs, isRunnerFailure r = false := by
      intro r hr
      rcases hall r hr with hnil | hassert
      · simp [isRunnerFailure, hnil]
      · have : r.hurl_result.errors.filter (fun e => !e.assert) = [] := by
          rw [List.filter_eq_nil_iff]
          intro e he
          simp [hassert e he]
        simp [isRunnerFailure, this]
    have hfilt : runs.filter isRunnerFailure = [] := by
      rw [List.filter_eq_nil_iff]
      intro r hr
      simp [hrun0 r hr]
    obtain ⟨r, hr, hne⟩ := hsome
    have haf : isAssertFailure r = true := by
      rcases hall r hr with hnil | hassert
      · exact absurd hnil hne
      · have : r.hurl_result.errors.filter (fun e => !e.assert) = [] := by
          rw [List.filter_eq_nil_iff]
          intro e he
          simp [hassert e he]
        simp [isAssertFailure, hne, this, List.isEmpty_iff]
    have hmem' : r ∈ runs.filter isAssertFailure := List.mem_filter.mpr ⟨hr, haf⟩
    have hpos : 0 < (runs.filter isAssertFailure).length :=
      List.length_pos.mpr (List.ne_nil_of_mem hmem')
    refine ⟨?_, ?_⟩ <;>
      simp [exit_code, classifyCounts_eq, hfilt, hpos, EXIT_ERROR_ASSERT, EXIT_ERROR_RUNTIME]
  · intro hall
    have h1 : runs.filter isRunnerFailure = [] := by
      rw [List.filter_eq_nil_iff]
      intro r hr
      simp [isRunnerFailure, hall r hr]
    have h2 : runs.filter isAssertFailure = [] := by
      rw [List.filter_eq_nil_iff]
      intro r hr
      simp [isAssertFailure, hall r hr]
    simp [exit_code, classifyCounts_eq, h1, h2]

/-- Witness for C2: a batch with one clean run and one assertion-only
failure exits 4; a batch of two clean runs exits 0. -/
theorem exit_code_assert_and_ok_witness :
    (exit_code [okRun, assertFailRun] = EXIT_ERROR_ASSERT ∧
      exit_code [okRun, assertFailRun] ≠ EXIT_ERROR_RUNTIME) ∧
    exit_code [okRun, okRun] = EXIT_OK :=
  ⟨(exit_code_assert_and_ok [okRun, assertFailRun]).1 (by decide) ⟨assertFailRun, by decide, by decide⟩,
   (exit_code_assert_and_ok [okRun, okRun]).2 (by decide)⟩

/-- C10: the empty batch exits with `EXIT_OK` (0), indistinguishable at the
exit-code level from a batch in which every run succeeded. -/
theorem exit_code_empty_batch :
    exit_code ([] : List HurlRun) = EXIT_OK ∧
      exit_code ([] : List HurlRun) = exit_code [okRun] := by
  decide

/-- Modelled from the spec: the Rust `f32` values arising in `get_summary`,
as exact fractions `num / den` (not normalized; `den = 0` never arises from
the constructions below).  The values the theorems below evaluate this model
at (small integer counts cast to f32, multiplied by 100.0 and divided) are
exactly representable in f32, where fraction and f32 arithmetic agree. -/
inductive F32 where
  | nan : F32
  | inf : F32
  | val (num : Int) (den : Nat) : F32
deriving DecidableEq, Repr

/-- Modelled from the spec: IEEE f32 division as used by `get_summary`:
`0.0 / 0.0` is NaN, `x / 0.0` with `x ≠ 0` is infinite (the operands in
`get_summary` are themselves never NaN or infinite). -/
def F32.div : F32 → F32 → F32
  | F32.val a b, F32.val c d =>
    if c = 0 then (if a = 0 then F32.nan else F32.inf)
    else F32.val (a * (d : Int) * c.sign) (b * c.natAbs)
  | _, _ => F32.nan

/-- Modelled from the spec: Rust `{:.1}` formatting of a nonnegative f32 to
one decimal place; NaN renders as "NaN".  The rounded count of tenths of
`num / den` is `⌊num / den * 10 + 1 / 2⌋ = ⌊(20 * num + den) / (2 * den)⌋`. -/
def formatF32One : F32 → String
  | F32.nan => "NaN"
  | F32.inf => "inf"
  | F32.val num den =>
    let n : Int := Int.fdiv (20 * num + (den : Int)) (2 * (den : Int))
    toString (n / 10) ++ "." ++ toString (n % 10)

/-- The `success` count of `get_summary` in main.rs: the runs whose outcome
has its overall success flag set. -/
def summary_success (runs : List HurlRun) : Nat :=
  (runs.filter (fun r => r.hurl_result.success)).length

/-- The `failed` count of `get_summary` in main.rs: total minus successes. -/
def summary_failed (runs : List HurlRun) : Nat :=
  runs.length - summary_success runs

/-- The `success_percent` of `get_summary` in main.rs:
`100.0 * success as f32 / total as f32`, with no guard on `total`. -/
def summary_success_percent (runs : List HurlRun) : F32 :=
  F32.div (F32.val (100 * (summary_success runs : Int)) 1) (F32.val (runs.length : Int) 1)

/-- The `failed_percent` of `get_summary` in main.rs:
`100.0 * failed as f32 / total as f32`, with no guard on `total`. -/
def summary_failed_percent (runs : List HurlRun) : F32 :=
  F32.div (F32.val (100 * (summary_failed runs : Int)) 1) (F32.val (runs.length : Int) 1)

/-- Function `get_summary` of main.rs: the text summary of the Hurl runs, with the
batch duration in milliseconds.  The Rust string-continuation backslashes
strip the leading whitespace of each continued line. -/
def get_summary (runs : List HurlRun) (duration : Nat) : String :=
  "--------------------------------------------------------------------------------\n" ++
  "Executed files:  " ++ toString runs.length ++ "\n" ++
  "Succeeded files: " ++ toString (summary_success runs) ++ " (" ++
    formatF32One (summary_success_percent runs) ++ "%)\n" ++
  "Failed files:    " ++ toString (summary_failed runs) ++ " (" ++
    formatF32One (summary_failed_percent runs) ++ "%)\n" ++
  "Duration:        " ++ toString duration ++ " ms\n"

set_option maxRecDepth 8000

/-- C8: three runs that all succeeded with duration 128 ms produce the
summary reporting executed 3, succeeded 3 (100.0%), failed 0 (0.0%) and
duration 128 ms (column alignment as in the source format string); and for
every batch the succeeded and failed counts sum to the total. -/

theorem get_summary_scenario_and_counts :
    get_summary [okRun, okRun, okRun] 128 =
      "--------------------------------------------------------------------------------\nExecuted files:  3\nSucceeded files: 3 (100.0%)\nFailed files:    0 (0.0%)\nDuration:        128 ms\n" ∧
    ∀ runs : List HurlRun, 0 < runs.length →
      summary_success runs + summary_failed runs = runs.length := by
  constructor
  · decide
  · intro runs _
    have h := List.length_filter_le (fun r => r.hurl_result.success) runs
    simp only [summary_failed, summary_success] at *
    omega

/-- Witness for C8: the count identity applied to a singleton batch. -/
theorem get_summary_scenario_and_counts_witness :
    summary_success [okRun] + summary_failed [okRun] = List.length [okRun] :=
  get_summary_scenario_and_counts.2 [okRun] (by decide)

/-- Counterexample to C5: on the empty batch (total = 0) the percentage
computation of `get_summary` performs the floating-point division with
divisor 0 — there is no guarded branch — yielding the division-by-zero
result NaN for both percentages, which is rendered in the summary text.
(f32 division by zero does not trap, so no crash occurs.) -/
theorem get_summary_division_by_zero_at_empty :
    summary_success_percent [] = F32.div (F32.val 0 1) (F32.val 0 1) ∧
    summary_success_percent [] = F32.nan ∧
    summary_failed_percent [] = F32.nan ∧
    get_summary [] 0 =
      "--------------------------------------------------------------------------------\nExecuted files:  0\nSucceeded files: 0 (NaN%)\nFailed files:    0 (NaN%)\nDuration:        0 ms\n" := by
  refine ⟨by decide, by decide, by decide, by decide⟩

/-- C5 (amended): the floating-point division in `get_summary` is not
guarded: when the total run count is zero both percentages are the
division-by-zero result NaN (IEEE f32 division does not trap, so the
division is safe in the no-crash sense but takes no guarded branch), and
for every batch with a positive total the divisor is non-zero and the
percentages are finite. -/
theorem get_summary_percent_nan_iff_empty :
    summary_success_percent [] = F32.nan ∧
    summary_failed_percent [] = F32.nan ∧
    ∀ runs : List HurlRun, 0 < runs.length →
      summary_success_percent runs ≠ F32.nan ∧ summary_failed_percent runs ≠ F32.nan := by
  refine ⟨by decide, by decide, ?_⟩
  intro runs hlen
  have hb : ((runs.length : Int)) ≠ 0 := by
    exact_mod_cast Nat.pos_iff_ne_zero.mp hlen
  constructor <;> simp [summary_success_percent, summary_failed_percent, F32.div, hb]

/-- Witness for C5 (amended): a singleton batch has non-NaN percentages. -/
theorem get_summary_percent_nan_iff_empty_witness :
    summary_success_percent [okRun] ≠ F32.nan ∧ summary_failed_percent [okRun] ≠ F32.nan :=
  get_summary_percent_nan_iff_empty.2.2 [okRun] (by decide)

lemma exit_code_map_of_errors_eq (runs : List HurlRun) (g : HurlRun → HurlRun)
    (h : ∀ r, (g r).hurl_result.errors = r.hurl_result.errors) :
    exit_code (runs.map g) = exit_code runs := by
  have hfilt : ∀ p : HurlRun → Bool,
      (∀ r, p (g r) = p r) → ((runs.map g).filter p).length = (runs.filter p).length := by
    intro p hp
    rw [List.filter_map, List.length_map]
    congr 1
    apply List.filter_congr
    intro r _
    simp [Function.comp, hp r]
  have h1 := hfilt isRunnerFailure (fun r => by simp [isRunnerFailure, h r])
  have h2 := hfilt isAssertFailure (fun r => by simp [isAssertFailure, h r])
  simp [exit_code, classifyCounts_eq, h1, h2]

lemma summary_success_map (runs : List HurlRun) (g : HurlRun → HurlRun)
    (h : ∀ r, (g r).hurl_result.success = r.hurl_result.success) :
    summary_success (runs.map g) = summary_success runs := by
  rw [summary_success, summary_success, List.filter_map, List.length_map]
  congr 1
  apply List.filter_congr
  intro r _
  simp [Function.comp, h r]

/-- C9: `exit_code` is computed solely from the error lists — it is
invariant under overwriting every run's success flag — while the summary
counts are computed solely from the success flags — `get_summary` is
invariant under erasing every run's entries (hence error lists) — so a run
with `success = false` but an empty error list exits 0 while the summary
counts it as failed. -/
theorem exit_code_ignores_success_summary_ignores_errors :
    (∀ (runs : List HurlRun) (b : Bool),
      exit_code (runs.map (fun r => ⟨r.content, r.filename,
        ⟨r.hurl_result.entries, r.hurl_result.time_in_ms, b, r.hurl_result.cookies⟩⟩)) =
        exit_code runs) ∧
    (∀ (runs : List HurlRun) (duration : Nat),
      get_summary (runs.map (fun r => ⟨r.content, r.filename,
        ⟨[], r.hurl_result.time_in_ms, r.hurl_result.success, r.hurl_result.cookies⟩⟩))
          duration =
        get_summary runs duration) ∧
    exit_code [⟨"", "f.hurl", ⟨[], 0, false, []⟩⟩] = EXIT_OK ∧
    summary_success [⟨"", "f.hurl", ⟨[], 0, false, []⟩⟩] = 0 ∧
    summary_failed [⟨"", "f.hurl", ⟨[], 0, false, []⟩⟩] = 1 := by
  refine ⟨?_, ?_, by decide, by decide, by decide⟩
  · intro runs b
    exact exit_code_map_of_errors_eq runs _ (fun r => rfl)
  · intro runs duration
    have hs := summary_success_map runs
      (fun r => ⟨r.content, r.filename,
        ⟨[], r.hurl_result.time_in_ms, r.hurl_result.success, r.hurl_result.cookies⟩⟩)
      (fun r => rfl)
    simp only [get_summary, summary_failed, summary_success_percent, summary_failed_percent,
      hs, List.length_map]

/-- Result of `get_input_files`: either the resolved list of filenames, or
printing usage and terminating the process with an exit code. -/
inductive InputResolution where
  | exitWith (code : Int) : InputResolution
  | files (filenames : List String) : InputResolution
deriving DecidableEq, Repr

/-- Function `get_input_files` of main.rs: pushes the positional `FILE` arguments,
then the glob-expanded paths, in caller order; on an empty aggregate, prints
help and exits with `EXIT_ERROR_COMMANDLINE` when stdin is a terminal,
otherwise substitutes the single stdin sentinel "-". -/
def get_input_files (files : Option (List String)) (glob_files : List String)
    (stdin_is_tty : Bool) : InputResolution :=
  let filenames : List String := []
  let filenames :=
    match files with
    | some values => values.foldl (fun acc value => acc ++ [value]) filenames
    | none => filenames
  let filenames := glob_files.foldl (fun acc filename => acc ++ [filename]) filenames
  if filenames.isEmpty then
    if stdin_is_tty then InputResolution.exitWith EXIT_ERROR_COMMANDLINE
    else InputResolution.files ["-"]
  else InputResolution.files filenames

lemma foldl_push_eq_append (l acc : List String) :
    l.foldl (fun acc v => acc ++ [v]) acc = acc ++ l := by
  induction l generalizing acc with
  | nil => simp
  | cons x xs ih => simp [List.foldl_cons, ih]

lemma get_input_files_aggregate (files : Option (List String)) (glob_files : List String) :
    glob_files.foldl (fun acc filename => acc ++ [filename])
      (match files with
       | some values => values.foldl (fun acc value => acc ++ [value]) ([] : List String)
       | none => ([] : List String)) = files.getD [] ++ glob_files := by
  cases files <;> simp [foldl_push_eq_append]

lemma get_input_files_eq_files (files : Option (List String)) (glob_files : List String)
    (stdin_is_tty : Bool) (h : files.getD [] ++ glob_files ≠ []) :
    get_input_files files glob_files stdin_is_tty =
      InputResolution.files (files.getD [] ++ glob_files) := by
  unfold get_input_files
  dsimp only
  rw [get_input_files_aggregate]
  simp [List.isEmpty_iff, h]

/-- C6: `get_input_files` returns the concatenation of the positional
arguments followed by the glob-expanded paths, in caller order and with no
deduplication; on an empty concatenation it yields the singleton stdin
sentinel "-" when stdin is non-interactive, and otherwise terminates with
`EXIT_ERROR_COMMANDLINE` (1) after printing usage. -/
theorem get_input_files_spec (files : Option (List String)) (glob_files : List String)
    (stdin_is_tty : Bool) :
    (files.getD [] ++ glob_files ≠ [] →
      get_input_files files glob_files stdin_is_tty =
        InputResolution.files (files.getD [] ++ glob_files)) ∧
    (files.getD [] ++ glob_files = [] →
      get_input_files files glob_files stdin_is_tty =
        if stdin_is_tty then InputResolution.exitWith EXIT_ERROR_COMMANDLINE
        else InputResolution.files ["-"]) := by
  refine ⟨get_input_files_eq_files files glob_files stdin_is_tty, ?_⟩
  intro h
  unfold get_input_files
  dsimp only
  rw [get_input_files_aggregate, h]
  simp

/-- Witness for C6: one positional and one glob file resolve in order; no
inputs with a non-interactive stdin resolve to the sentinel. -/
theorem get_input_files_spec_witness :
    get_input_files (some ["a.hurl"]) ["g.hurl"] true =
      InputResolution.files ["a.hurl", "g.hurl"] ∧
    get_input_files none [] false = InputResolution.files ["-"] :=
  ⟨(get_input_files_spec (some ["a.hurl"]) ["g.hurl"] true).1 (by decide),
   (get_input_files_spec none [] false).2 rfl⟩

/-- The `cli::CliError` struct: a message string. -/
structure CliError where
  message : String
deriving DecidableEq, Repr

/-- A filesystem side effect of `create_cookies_file`: creating (truncating)
the target file, or writing the full cookie-jar text into it. -/
inductive FileOp where
  | create (filename : String) : FileOp
  | writeAll (filename : String) (content : String) : FileOp
deriving DecidableEq, Repr

/-- The cookie-jar text built by `create_cookies_file` for one run: the
Netscape header, then one serialized cookie per line. -/
def cookieFileContent (run : HurlRun) : String :=
  run.hurl_result.cookies.foldl (fun s c => s ++ c ++ "\n")
    "# Netscape HTTP Cookie File\n# This file was generated by Hurl\n\n"

/-- Function `create_cookies_file` of main.rs, with the filesystem as two oracles:
`createOk` tells whether `File::create` succeeds and `writeOk` whether
`write_all` succeeds.  Returns the file operations performed and the
result.  Note the order in the source: the target file is created first,
and the run list is only inspected afterwards, via `runs.first()`. -/
def create_cookies_file (createOk writeOk : Bool) (runs : List HurlRun)
    (filename : String) : List FileOp × Except CliError Unit :=
  if !createOk then
    ([], Except.error ⟨"Issue writing to " ++ filename⟩)
  else
    match runs.head? with
    | none => ([FileOp.create filename], Except.error ⟨"Issue fetching results"⟩)
    | some run =>
      if writeOk then
        ([FileOp.create filename, FileOp.writeAll filename (cookieFileContent run)],
          Except.ok ())
      else ([FileOp.create filename], Except.error ⟨"Issue writing to " ++ filename⟩)

/-- Counterexample to C3: with two RunRecords (count ≠ 1) the cookie writer
does not fail — it returns Ok, exporting only the first run's cookies — and
with zero RunRecords it does fail, but only after the target file has
already been created (truncated). -/
theorem create_cookies_file_multi_run_succeeds :
    (create_cookies_file true true [okRun, assertFailRun] "cookies.txt").2 = Except.ok () ∧
    create_cookies_file true true [] "cookies.txt" =
      ([FileOp.create "cookies.txt"], Except.error ⟨"Issue fetching results"⟩) :=
  ⟨rfl, rfl⟩

/-- C3 (amended): the cookie writer rejects only the empty RunRecord list,
with the descriptive error "Issue fetching results", and even then the
target file has already been created (truncated) on that error path; with
one or more RunRecords it succeeds, writing the header plus the cookies of
the first run only. -/
theorem create_cookies_file_spec (filename : String) (r : HurlRun) (rest : List HurlRun) :
    create_cookies_file true true [] filename =
      ([FileOp.create filename], Except.error ⟨"Issue fetching results"⟩) ∧
    create_cookies_file true true (r :: rest) filename =
      ([FileOp.create filename, FileOp.writeAll filename (cookieFileContent r)],
        Except.ok ()) :=
  ⟨rfl, rfl⟩

/-- The `cli::OutputType` of the CLI layer: last response body, a JSON
representation of the run, or no output. -/
inductive OutputType where
  | responseBody : OutputType
  | json : OutputType
  | noOutput : OutputType
deriving DecidableEq, Repr

/-- The fields of `cli::CliOptions` that drive the control flow of `main`.
Color, verbosity and the progress bar only affect logging and are omitted;
`cli::parse_options` itself is an external collaborator. -/
structure CliOptions where
  cookie_output_file : Option String
  junit_file : Option String
  html_dir : Option String
  test : Bool
  interactive : Bool
  output_type : OutputType
deriving DecidableEq, Repr

/-- Modelled from the spec: the external collaborators of `main` as oracles —
terminal detection, the filesystem, the execution engine (`none` marks a
parse failure), and the success of each writer. -/
structure World where
  stdin_is_tty : Bool
  fileExists : String → Bool
  readFile : String → Option String
  execute : String → String → Option HurlResult
  writeBodyOk : String → Bool
  writeJsonOk : String → Bool
  junitOk : Bool
  htmlOk : Bool
  cookieCreateOk : Bool
  cookieWriteOk : Bool
  currentDirOk : Bool

/-- An observable side effect of one `main` invocation. -/
inductive Event where
  | executed (filename : String) : Event
  | wroteBody (filename : String) : Event
  | wroteJson (filename : String) : Event
  | wroteJunit (filename : String) : Event
  | wroteHtml (dir : String) : Event
  | cookieFileOp (op : FileOp) : Event
  | printedSummary : Event
deriving DecidableEq, Repr

/-- Report events: artifacts derived from the collected RunRecords after the
execution loop (JUnit report, HTML report, cookie jar, textual summary), as
opposed to the per-source execution and immediate output events. -/
def isReportEvent : Event → Bool
  | Event.wroteJunit _ => true
  | Event.wroteHtml _ => true
  | Event.cookieFileOp _ => true
  | Event.printedSummary => true
  | _ => false

/-- One iteration of the `for (current, filename)` loop of `main`: the
existence precondition, the read, the engine call, then the optional
immediate body/JSON outputs.  On success, the events emitted and the
collected `HurlRun`; on early process exit, the events emitted and the exit
code. -/
def runStep (w : World) (o : CliOptions) (filename : String) :
    Except (List Event × Int) (List Event × HurlRun) :=
  if filename != "-" && !w.fileExists filename then
    Except.error ([], EXIT_ERROR_PARSING)
  else
    match w.readFile filename with
    | none => Except.error ([], EXIT_ERROR_PARSING)
    | some content =>
      match w.execute content filename with
      | none => Except.error ([Event.executed filename], EXIT_ERROR_PARSING)
      | some hurl_result =>
        if (hurl_result.success && !o.interactive &&
            (o.output_type == OutputType.responseBody)) && !w.writeBodyOk filename then
          Except.error ([Event.executed filename], EXIT_ERROR_RUNTIME)
        else if (o.output_type == OutputType.json) && !w.writeJsonOk filename then
          Except.error
            ([Event.executed filename] ++
              (if hurl_result.success && !o.interactive &&
                  (o.output_type == OutputType.responseBody) then
                [Event.wroteBody filename]
              else []), EXIT_ERROR_RUNTIME)
        else
          Except.ok
            ([Event.executed filename] ++
              (if hurl_result.success && !o.interactive &&
                  (o.output_type == OutputType.responseBody) then
                [Event.wroteBody filename]
              else []) ++
              (if o.output_type == OutputType.json then [Event.wroteJson filename]
              else []),
             ⟨content, filename, hurl_result⟩)

/-- Result of the whole execution loop: an early process exit, or the events
emitted and the runs collected. -/
inductive LoopOut where
  | exitWith (events : List Event) (code : Int) : LoopOut
  | done (events : List Event) (runs : List HurlRun) : LoopOut
deriving DecidableEq, Repr

/-- The execution loop of `main` over the resolved filenames. -/
def runLoop (w : World) (o : CliOptions) : List String → LoopOut
  | [] => LoopOut.done [] []
  | filename :: rest =>
    match runStep w o filename with
    | Except.error (evs, code) => LoopOut.exitWith evs code
    | Except.ok (evs, run) =>
      match runLoop w o rest with
      | LoopOut.exitWith evs2 code => LoopOut.exitWith (evs ++ evs2) code
      | LoopOut.done evs2 runs => LoopOut.done (evs ++ evs2) (run :: runs)

/-- Tail of the report phase of `main`: the cookie-jar writer (aborting with
`EXIT_ERROR_UNDEFINED` on failure), the test-mode summary, and the final
`exit_code` over the collected runs. -/
def reportPhaseCookies (w : World) (o : CliOptions) (runs : List HurlRun)
    (evs : List Event) : List Event × Int :=
  match o.cookie_output_file with
  | some f =>
    match create_cookies_file w.cookieCreateOk w.cookieWriteOk runs f with
    | (ops, Except.error _) => (evs ++ ops.map Event.cookieFileOp, EXIT_ERROR_UNDEFINED)
    | (ops, Except.ok _) =>
      (evs ++ ops.map Event.cookieFileOp ++
        (if o.test then [Event.printedSummary] else []), exit_code runs)
  | none => (evs ++ (if o.test then [Event.printedSummary] else []), exit_code runs)

/-- The HTML-report writer of `main`, then the rest of the report phase. -/
def reportPhaseHtml (w : World) (o : CliOptions) (runs : List HurlRun)
    (evs : List Event) : List Event × Int :=
  match o.html_dir with
  | some d =>
    if w.htmlOk then reportPhaseCookies w o runs (evs ++ [Event.wroteHtml d])
    else (evs, EXIT_ERROR_UNDEFINED)
  | none => reportPhaseCookies w o runs evs

/-- The report phase of `main` after the execution loop: JUnit report, HTML
report, cookie jar, summary, final exit code, in source order, each writer
aborting the process with `EXIT_ERROR_UNDEFINED` on failure. -/
def reportPhase (w : World) (o : CliOptions) (runs : List HurlRun) : List Event × Int :=
  match o.junit_file with
  | some f =>
    if w.junitOk then reportPhaseHtml w o runs [Event.wroteJunit f]
    else ([], EXIT_ERROR_UNDEFINED)
  | none => reportPhaseHtml w o runs []

/-- The orchestration of `main` in main.rs from parsed options onwards:
input resolution, the cookie-jar uniqueness guard, the current-directory
lookup, the execution loop, the report phase.  Returns the ordered
observable events and the process exit code. -/
def mainModel (w : World) (o : CliOptions) (files : Option (List String))
    (glob_files : List String) : List Event × Int :=
  match get_input_files files glob_files w.stdin_is_tty with
  | InputResolution.exitWith code => ([], code)
  | InputResolution.files filenames =>
    if o.cookie_output_file.isSome ∧ filenames.length > 1 then
      ([], EXIT_ERROR_UNDEFINED)
    else if !w.currentDirOk then ([], EXIT_ERROR_UNDEFINED)
    else
      match runLoop w o filenames with
      | LoopOut.exitWith evs code => (evs, code)
      | LoopOut.done evs runs =>
        ((evs ++ (reportPhase w o runs).1), (reportPhase w o runs).2)

/-- A world where every file exists and reads as empty content, the engine
always succeeds with a clean outcome, and every writer succeeds. -/
def happyWorld : World :=
  ⟨false, fun _ => true, fun _ => some "", fun _ _ => some ⟨[⟨[]⟩], 0, true, []⟩,
   fun _ => true, fun _ => true, true, true, true, true, true⟩

/-- Options requesting only cookie-jar export. -/
def cookieOptions : CliOptions :=
  ⟨some "cookies.txt", none, none, false, false, OutputType.noOutput⟩

/-- Options requesting no artifact at all. -/
def plainOptions : CliOptions :=
  ⟨none, none, none, false, false, OutputType.noOutput⟩

/-- Counterexample to C4: cookie-jar export requested together with two
input sources terminates before executing any source (no events at all),
but with exit code 127 (`EXIT_ERROR_UNDEFINED`), not the command-line error
code 1 the claim states. -/
theorem cookie_jar_guard_exit_code_is_127 :
    mainModel happyWorld cookieOptions (some ["a.hurl", "b.hurl"]) [] =
      ([], EXIT_ERROR_UNDEFINED) ∧
    EXIT_ERROR_UNDEFINED ≠ EXIT_ERROR_COMMANDLINE := by
  exact ⟨by decide, by decide⟩

/-- C4 (amended): if cookie-jar export is requested together with more than
one resolved input source, the process terminates before executing any
source — it produces no events at all — with the internal/undefined exit
code 127 (`EXIT_ERROR_UNDEFINED`), not the command-line error code 1. -/
theorem cookie_jar_multi_source_guard (w : World) (o : CliOptions)
    (files : Option (List String)) (glob_files : List String) (filenames : List String)
    (hres : get_input_files files glob_files w.stdin_is_tty =
      InputResolution.files filenames)
    (hcookie : o.cookie_output_file.isSome = true)
    (hlen : filenames.length > 1) :
    mainModel w o files glob_files = ([], EXIT_ERROR_UNDEFINED) := by
  unfold mainModel
  rw [hres]
  simp [hcookie, hlen]

/-- Witness for C4 (amended): the guard theorem applied to a concrete world
with two named sources and cookie export requested. -/
theorem cookie_jar_multi_source_guard_witness :
    mainModel happyWorld cookieOptions (some ["a.hurl", "b.hurl"]) [] =
      ([], EXIT_ERROR_UNDEFINED) :=
  cookie_jar_multi_source_guard happyWorld cookieOptions (some ["a.hurl", "b.hurl"]) []
    ["a.hurl", "b.hurl"] (by decide) (by decide) (by decide)

lemma runStep_missing (w : World) (o : CliOptions) (f : String) (hf : f ≠ "-")
    (hfail : w.fileExists f = false ∨ w.readFile f = none) :
    runStep w o f = Except.error ([], EXIT_ERROR_PARSING) := by
  rcases hfail with hm | hr
  · have hcond : (f != "-" && !w.fileExists f) = true := by
      simp [hm, hf]
    simp [runStep, hcond]
  · by_cases hex : w.fileExists f
    · have hcond : (f != "-" && !w.fileExists f) = false := by
        simp [hex]
      simp [runStep, hcond, hr]
    · have hcond : (f != "-" && !w.fileExists f) = true := by
        simp [hf]
        simpa using hex
      simp [runStep, hcond]

lemma runStep_ok_events (w : World) (o : CliOptions) (f : String) (evs : List Event)
    (run : HurlRun) (h : runStep w o f = Except.ok (evs, run)) :
    ∀ e ∈ evs, isReportEvent e = false := by
  unfold runStep at h
  split at h
  · simp at h
  · split at h
    · simp at h
    · split at h
      · simp at h
      · split at h
        · simp at h
        · split at h
          · simp at h
          · rw [Except.ok.injEq, Prod.mk.injEq] at h
            obtain ⟨hevs, -⟩ := h
            subst hevs
            intro e he
            simp only [List.mem_append] at he
            rcases he with (he | he) | he
            · simp at he
              subst he
              rfl
            · split at he
              · simp at he
                subst he
                rfl
              · simp at he
            · split at he
              · simp at he
                subst he
                rfl
              · simp at he

lemma runLoop_done_events (w : World) (o : CliOptions) (l : List String)
    (evs : List Event) (runs : List HurlRun)
    (h : runLoop w o l = LoopOut.done evs runs) :
    ∀ e ∈ evs, isReportEvent e = false := by
  induction l generalizing evs runs with
  | nil =>
    simp [runLoop] at h
    obtain ⟨h1, -⟩ := h
    subst h1
    simp
  | cons f fs ih =>
    rw [runLoop] at h
    cases hstep : runStep w o f with
    | error p => rw [hstep] at h; simp at h
    | ok p =>
      obtain ⟨evs1, run1⟩ := p
      rw [hstep] at h
      cases hrec : runLoop w o fs with
      | exitWith e2 c2 => rw [hrec] at h; simp at h
      | done e2 rs2 =>
        rw [hrec] at h
        rw [LoopOut.done.injEq] at h
        obtain ⟨hevs, -⟩ := h
        subst hevs
        intro e he
        rcases List.mem_append.mp he with h1 | h2
        · exact runStep_ok_events w o f evs1 run1 hstep e h1
        · exact ih e2 rs2 hrec e h2

lemma runLoop_append_exit (w : World) (o : CliOptions) (pre rest : List String)
    (evs evs2 : List Event) (runs : List HurlRun) (code : Int)
    (hpre : runLoop w o pre = LoopOut.done evs runs)
    (hrest : runLoop w o rest = LoopOut.exitWith evs2 code) :
    runLoop w o (pre ++ rest) = LoopOut.exitWith (evs ++ evs2) code := by
  induction pre generalizing evs runs with
  | nil =>
    simp [runLoop] at hpre
    obtain ⟨h1, -⟩ := hpre
    subst h1
    simpa using hrest
  | cons f fs ih =>
    rw [runLoop] at hpre
    cases hstep : runStep w o f with
    | error p => rw [hstep] at hpre; simp at hpre
    | ok p =>
      obtain ⟨evs1, run1⟩ := p
      rw [hstep] at hpre
      cases hrec : runLoop w o fs with
      | exitWith e2 c2 => rw [hrec] at hpre; simp at hpre
      | done e2 rs2 =>
        rw [hrec] at hpre
        rw [LoopOut.done.injEq] at hpre
        obtain ⟨hevs, -⟩ := hpre
        subst hevs
        rw [List.cons_append, runLoop, hstep, ih e2 rs2 hrec]
        simp [List.append_assoc]

/-- C7: if a named source (other than the stdin sentinel) does not exist or
cannot be read, the process exits with `EXIT_ERROR_PARSING` (2), and no
report artifact is written even when earlier sources in the same batch
executed successfully: the emitted events are exactly those of the earlier
sources' execution and immediate outputs, none of which is a report event,
so no collected run reaches any report writer. -/
theorem missing_source_exits_before_reports (w : World) (o : CliOptions)
    (pre post : List String) (f : String) (evs : List Event) (runs : List HurlRun)
    (hdir : w.currentDirOk = true)
    (hguard : ¬(o.cookie_output_file.isSome ∧ (pre ++ f :: post).length > 1))
    (hpre : runLoop w o pre = LoopOut.done evs runs)
    (hf : f ≠ "-")
    (hfail : w.fileExists f = false ∨ w.readFile f = none) :
    mainModel w o (some (pre ++ f :: post)) [] = (evs, EXIT_ERROR_PARSING) ∧
    ∀ e ∈ evs, isReportEvent e = false := by
  have hne : (some (pre ++ f :: post) : Option (List String)).getD [] ++ [] ≠ [] := by
    simp
  have hres := get_input_files_eq_files (some (pre ++ f :: post)) [] w.stdin_is_tty hne
  simp only [Option.getD_some, List.append_nil] at hres
  have hstep : runStep w o f = Except.error ([], EXIT_ERROR_PARSING) :=
    runStep_missing w o f hf hfail
  have hloop_tail : runLoop w o (f :: post) = LoopOut.exitWith [] EXIT_ERROR_PARSING := by
    rw [runLoop, hstep]
  have hloop := runLoop_append_exit w o pre (f :: post) evs [] runs EXIT_ERROR_PARSING
    hpre hloop_tail
  rw [List.append_nil] at hloop
  refine ⟨?_, runLoop_done_events w o pre evs runs hpre⟩
  unfold mainModel
  rw [hres]
  dsimp only
  rw [if_neg hguard]
  simp [hdir, hloop]

/-- A world where only "a.hurl" exists, reads succeed with empty content,
the engine always produces a clean outcome, and every writer succeeds. -/
def missingWorld : World :=
  ⟨false, fun s => s == "a.hurl", fun _ => some "", fun _ _ => some ⟨[⟨[]⟩], 0, true, []⟩,
   fun _ => true, fun _ => true, true, true, true, true, true⟩

/-- Witness for C7: with sources ["a.hurl", "b.hurl"] where only "a.hurl"
exists, the process exits 2 after executing only "a.hurl", emitting no
report event. -/
theorem missing_source_exits_before_reports_witness :
    mainModel missingWorld plainOptions (some (["a.hurl"] ++ "b.hurl" :: [])) [] =
      ([Event.executed "a.hurl"], EXIT_ERROR_PARSING) ∧
    ∀ e ∈ [Event.executed "a.hurl"], isReportEvent e = false :=
  missing_source_exits_before_reports missingWorld plainOptions ["a.hurl"] [] "b.hurl"
    [Event.executed "a.hurl"] [⟨"", "a.hurl", ⟨[⟨[]⟩], 0, true, []⟩⟩]
    rfl (by decide) (by decide) (by decide) (by decide)
